import Mathlib

/-!
Verification of the fire-box provider-mediation service against its
natural-language specification.

The Rust sources under `src/service/src/` are shallowly embedded below:
pure functions become Lean functions, the stateful collectors and stores
become explicit state-passing over plain structures, `f64` cost values are
modelled as exact rationals, machine-integer casts are modelled with
explicit `% 2 ^ 32` reductions where overflow is observable, and fallible
code returns `Option`/`Except`.  Strings are processed over their
character lists so that every definition evaluates inside the kernel.
-/

/-! ## Generic character-list helpers (Rust `str` operations) -/

/-- Lowercase every character; models Rust `str::to_lowercase` on the
ASCII fragment exercised by the retry classifier. -/
def strToLower (s : String) : String :=
  String.mk (s.data.map Char.toLower)

/-- Does `needle` occur as a contiguous subsequence of `hay`?
Models Rust `str::contains`. -/
def containsSeq (needle : List Char) : List Char → Bool
  | [] => needle.isEmpty
  | c :: rest => needle.isPrefixOf (c :: rest) || containsSeq needle rest

/-- Substring test on strings; models Rust `str::contains`. -/
def strContainsSub (s pat : String) : Bool :=
  containsSeq pat.data s.data

/-- Split a character list at every occurrence of `sep`; models Rust
`str::split(sep)` (so `"".split` yields one empty piece and a trailing
separator yields a trailing empty piece). -/
def splitChar (sep : Char) : List Char → List (List Char)
  | [] => [[]]
  | c :: rest =>
    match splitChar sep rest with
    | [] => [[]]
    | piece :: pieces =>
      if c = sep then [] :: piece :: pieces else (c :: piece) :: pieces

/-- Drop a single trailing carriage return, as Rust `str::lines` does. -/
def dropCarriage (l : List Char) : List Char :=
  if l.getLast? = some (Char.ofNat 13) then l.dropLast else l

/-- Models Rust `str::lines`: split on the newline character, strip one
trailing empty piece (produced by a terminating newline) and a trailing
carriage return on every line. -/
def rustLines (s : String) : List String :=
  let pieces := splitChar (Char.ofNat 10) s.data
  let pieces := if pieces.getLast? = some [] then pieces.dropLast else pieces
  pieces.map (fun l => String.mk (dropCarriage l))

/-- Trim leading and trailing whitespace; models Rust `str::trim`. -/
def strTrim (s : String) : String :=
  String.mk (((s.data.dropWhile Char.isWhitespace).reverse.dropWhile
    Char.isWhitespace).reverse)

/-- Drop the first `n` characters (the embedded code only drops ASCII
characters, where Rust byte slicing agrees with character dropping). -/
def strDropChars (s : String) (n : Nat) : String :=
  String.mk (s.data.drop n)

/-- Character-prefix test; models Rust `str::starts_with`. -/
def strStarts (s pat : String) : Bool :=
  pat.data.isPrefixOf s.data

/-- Reduction modulo `2 ^ 32`; models a Rust `as u32` cast (and wrapping
`u32` addition when applied to a sum). -/
def u32cast (n : Nat) : Nat := n % 4294967296

/-! ## JSON values

Model of `serde_json::Value` restricted to the fragment the service
exchanges: `null`, booleans, (signed) integers, strings, arrays and
objects.  Numbers that are not integers do not occur in any input
considered by the theorems below. -/

inductive Json where
  | null
  | bool (b : Bool)
  | num (n : Int)
  | str (s : String)
  | arr (elems : List Json)
  | obj (fields : List (String × Json))

/-- Models `serde_json::Value::get(key)`: field lookup returning `none`
on a missing key or a non-object. -/
def Json.getF : Json → String → Option Json
  | .obj fields, key => (fields.find? (fun kv => kv.1 == key)).map (fun kv => kv.2)
  | _, _ => none

/-- Models `value[key]` indexing on a shared reference, which yields
`Null` for a missing key or a non-object. -/
def Json.idx (j : Json) (key : String) : Json :=
  (j.getF key).getD .null

/-- Models `Value::as_str`. -/
def Json.asStr : Json → Option String
  | .str s => some s
  | _ => none

/-- Models `Value::as_u64` on the integer fragment. -/
def Json.asU64 : Json → Option Nat
  | .num n => if 0 ≤ n then some n.toNat else none
  | _ => none

/-- Models `Value::as_array`. -/
def Json.asArr : Json → Option (List Json)
  | .arr elems => some elems
  | _ => none

/-- Models `Value::is_null`. -/
def Json.isNullB : Json → Bool
  | .null => true
  | _ => false

/-- Models `Value::is_string`. -/
def Json.isStrB : Json → Bool
  | .str _ => true
  | _ => false

/-! ## Metrics collector (`src/service/src/middleware/metrics.rs`)

Atomic `u64` counters are modelled as `Nat` (the spec-relevant claims
never approach `2 ^ 64`), the `HashMap` breakdown as an association
list in insertion order, and `f64` cost values as exact rationals. -/

/-- Rust `ProviderMetricsInner`: the per-provider counter record. -/
structure ProviderEntryR where
  requests_total : Nat := 0
  requests_failed : Nat := 0
  prompt_tokens : Nat := 0
  completion_tokens : Nat := 0
  cost_total : Nat := 0
deriving DecidableEq

/-- Rust `MetricsCollector`: global counters plus the per-provider map. -/
structure CollectorR where
  requests_total : Nat := 0
  requests_success : Nat := 0
  requests_failed : Nat := 0
  prompt_tokens : Nat := 0
  completion_tokens : Nat := 0
  latency_sum_ms : Nat := 0
  latency_count : Nat := 0
  cost_total : Nat := 0
  provider_metrics : List (String × ProviderEntryR) := []
deriving DecidableEq

/-- The freshly constructed collector (`MetricsCollector::new`). -/
def emptyCollector : CollectorR := {}

/-- Models `(cost_cents * 100.0) as u64`: multiply by one hundred and
truncate toward zero, saturating negative values at zero.  `f64`
arithmetic is modelled as exact rational arithmetic. -/
def costFixed (cost_cents : ℚ) : Nat :=
  (Int.floor (cost_cents * 100)).toNat

/-- Association-list lookup, modelling `HashMap::get`. -/
def alistGet (l : List (String × ProviderEntryR)) (key : String) :
    Option ProviderEntryR :=
  (l.find? (fun kv => kv.1 == key)).map (fun kv => kv.2)

/-- Association-list key test, modelling `HashMap::contains_key`. -/
def alistHas (l : List (String × ProviderEntryR)) (key : String) : Bool :=
  l.any (fun kv => kv.1 == key)

/-- Rust `MetricsCollector::record_success`. -/
def record_success (c : CollectorR) (prompt_tokens completion_tokens latency_ms : Nat)
    (cost_cents : ℚ) : CollectorR :=
  { c with
    requests_total := c.requests_total + 1
    requests_success := c.requests_success + 1
    prompt_tokens := c.prompt_tokens + prompt_tokens
    completion_tokens := c.completion_tokens + completion_tokens
    latency_sum_ms := c.latency_sum_ms + latency_ms
    latency_count := c.latency_count + 1
    cost_total := c.cost_total + costFixed cost_cents }

/-- The per-provider breakdown key: the provider id, a colon, then the
model id or the empty string, as built by the source's format call. -/
def breakdownKey (provider_id : String) (model_id : Option String) : String :=
  provider_id ++ ":" ++ model_id.getD ""

/-- Rust `MetricsCollector::record_success_with_breakdown`.  Faithful to the
source: the stored entry is read out (`.cloned().unwrap_or_default()`),
the updates are applied to that detached clone, and the clone is
inserted into the map only when the key was absent. -/
def record_success_with_breakdown (c : CollectorR) (provider_id : String)
    (model_id : Option String) (prompt_tokens completion_tokens latency_ms : Nat)
    (cost_cents : ℚ) : CollectorR :=
  let c := record_success c prompt_tokens completion_tokens latency_ms cost_cents
  let key := breakdownKey provider_id model_id
  let metrics := (alistGet c.provider_metrics key).getD {}
  let metrics :=
    { metrics with
      requests_total := metrics.requests_total + 1
      prompt_tokens := metrics.prompt_tokens + prompt_tokens
      completion_tokens := metrics.completion_tokens + completion_tokens
      cost_total := metrics.cost_total + costFixed cost_cents }
  if alistHas c.provider_metrics key then c
  else { c with provider_metrics := c.provider_metrics ++ [(key, metrics)] }

/-- Rust `MetricsCollector::record_failure`. -/
def record_failure (c : CollectorR) (latency_ms : Nat) : CollectorR :=
  { c with
    requests_total := c.requests_total + 1
    requests_failed := c.requests_failed + 1
    latency_sum_ms := c.latency_sum_ms + latency_ms
    latency_count := c.latency_count + 1 }

/-- Rust `MetricsCollector::record_failure_with_breakdown`; the same
clone-update-insert-if-absent shape as the success variant. -/
def record_failure_with_breakdown (c : CollectorR) (provider_id : String)
    (model_id : Option String) (latency_ms : Nat) : CollectorR :=
  let c := record_failure c latency_ms
  let key := breakdownKey provider_id model_id
  let metrics := (alistGet c.provider_metrics key).getD {}
  let metrics :=
    { metrics with
      requests_total := metrics.requests_total + 1
      requests_failed := metrics.requests_failed + 1 }
  if alistHas c.provider_metrics key then c
  else { c with provider_metrics := c.provider_metrics ++ [(key, metrics)] }

/-- Rust `MetricsSnapshot` with the cost reported as a rational. -/
structure MetricsSnapshotR where
  window_start_ms : Nat
  window_end_ms : Nat
  requests_total : Nat
  requests_failed : Nat
  prompt_tokens_total : Nat
  completion_tokens_total : Nat
  latency_avg_ms : Nat
  cost_total : ℚ
deriving DecidableEq

/-- Rust `MetricsCollector::snapshot`. -/
def snapshot (c : CollectorR) (window_start_ms window_end_ms : Nat) :
    MetricsSnapshotR :=
  { window_start_ms := window_start_ms
    window_end_ms := window_end_ms
    requests_total := c.requests_total
    requests_failed := c.requests_failed
    prompt_tokens_total := c.prompt_tokens
    completion_tokens_total := c.completion_tokens
    latency_avg_ms :=
      if c.latency_count > 0 then c.latency_sum_ms / c.latency_count else 0
    cost_total := (c.cost_total : ℚ) / 100 }

/-- Rust `ProviderMetrics`: the reported per-provider breakdown row. -/
structure ProviderMetricsR where
  provider_id : String
  model_id : Option String
  requests_total : Nat
  requests_failed : Nat
  prompt_tokens_total : Nat
  completion_tokens_total : Nat
  cost_total : ℚ
deriving DecidableEq

/-- Rust `MetricsCollector::get_provider_metrics`: split each stored key on
the colon; the piece before the first colon is the provider id and the
second piece, when non-empty, the model id. -/
def get_provider_metrics (c : CollectorR) : List ProviderMetricsR :=
  c.provider_metrics.map (fun kv =>
    let parts := splitChar (Char.ofNat 58) kv.1.data
    { provider_id := String.mk (parts.headD [])
      model_id :=
        match parts.get? 1 with
        | some piece => if piece.isEmpty then none else some (String.mk piece)
        | none => none
      requests_total := kv.2.requests_total
      requests_failed := kv.2.requests_failed
      prompt_tokens_total := kv.2.prompt_tokens
      completion_tokens_total := kv.2.completion_tokens
      cost_total := (kv.2.cost_total : ℚ) / 100 })

/-! ## Retry engine (`src/service/src/providers/retry.rs`) -/

/-- Rust `is_retryable`: lowercase the error message, then look for the
network substrings and the retryable HTTP status substrings. -/
def isRetryable (msg : String) : Bool :=
  let error_str := strToLower msg
  if strContainsSub error_str "connection" || strContainsSub error_str "timeout" ||
      strContainsSub error_str "dns" || strContainsSub error_str "network" then
    true
  else if strContainsSub error_str "http 429" || strContainsSub error_str "http 500" ||
      strContainsSub error_str "http 502" || strContainsSub error_str "http 503" ||
      strContainsSub error_str "http 504" then
    true
  else
    false

/-- The loop body of `with_retry`.  The operation is modelled as the
function `f` from the invocation index (0-based) to that invocation's
result; `k` counts the invocations made so far and `fuel` equals
`max_retries - k`, so `fuel = 0` exactly when `attempt > max_retries`
holds in the source after the next failure. -/
def withRetryLoop (f : Nat → Except String α) : Nat → Nat → Except String α × Nat
  | k, fuel =>
    match f k with
    | .ok v => (.ok v, k + 1)
    | .error e =>
      match fuel with
      | 0 => (.error e, k + 1)
      | fuel' + 1 =>
        if isRetryable e then withRetryLoop f (k + 1) fuel' else (.error e, k + 1)

/-- Rust `with_retry`: returns the final result together with the total
number of invocations performed (backoff sleeps are timing-only and are
not modelled). -/
def with_retry (max_retries : Nat) (f : Nat → Except String α) :
    Except String α × Nat :=
  withRetryLoop f 0 max_retries

/-! ## Alias router (`src/service/src/middleware/route.rs`) -/

/-- Rust `RouteTarget`. -/
structure RouteTargetR where
  provider_id : String
  model_id : String
deriving DecidableEq

/-- Rust `RouteRule` (the `alias` field is named `aliasName` here). -/
structure RouteRuleR where
  aliasName : String
  targets : List RouteTargetR
deriving DecidableEq

/-- Rust `resolve_alias`, with the in-memory rule map passed explicitly as a
lookup function (`get_route_rules`). -/
def resolve_alias (rules : String → Option RouteRuleR) (a : String) :
    Except String (String × String) :=
  match rules a with
  | some rule =>
    match rule.targets with
    | [] => .error ("No targets for alias: " ++ a)
    | t :: _ => .ok (t.provider_id, t.model_id)
  | none => .ok ("default", a)

/-! ## Encrypted store data and the provider registry
(`src/service/src/middleware/store.rs`, `src/service/src/providers/config.rs`) -/

/-- Rust `StoreData`; the hash maps are modelled as association lists. -/
structure StoreDataR where
  provider_index : List String := []
  providers : List (String × String) := []
  display_names : List (String × String) := []
  route_rules : List (String × String) := []
  enabled_models : List (String × List String) := []
deriving DecidableEq

/-- Rust `remove_provider`: the mutator passed to `store::update` removes the
profile from `providers` only. -/
def remove_provider (d : StoreDataR) (profile : String) : StoreDataR :=
  { d with providers := d.providers.filter (fun kv => kv.1 != profile) }

/-- Rust `remove_from_provider_index`: the mutator retains every index entry
other than the profile. -/
def remove_from_provider_index (d : StoreDataR) (profile : String) : StoreDataR :=
  { d with provider_index := d.provider_index.filter (fun id => id != profile) }

/-- Key membership in the `providers` map. -/
def providersHas (d : StoreDataR) (profile : String) : Bool :=
  d.providers.any (fun kv => kv.1 == profile)

/-! ## Unified response shapes (`src/service/src/providers/mod.rs`) -/

/-- Rust `Usage`. -/
structure UsageR where
  prompt_tokens : Nat
  completion_tokens : Nat
  total_tokens : Nat
deriving DecidableEq

/-- Rust `ChatMessage`. -/
structure ChatMessageR where
  role : String
  content : String
deriving DecidableEq

/-- Rust `Choice`. -/
structure ChoiceR where
  index : Nat
  message : ChatMessageR
  finish_reason : Option String
deriving DecidableEq

/-- Rust `CompletionResponse`. -/
structure CompletionResponseR where
  id : String
  model : String
  choices : List ChoiceR
  usage : Option UsageR
deriving DecidableEq

/-! ## Non-streaming response parsers -/

/-- Rust `OpenAiProvider::parse_response` (`src/service/src/providers/openai.rs`,
lines 112-157).  `as u32` casts are `u32cast`. -/
def openaiParseResponse (json : Json) : Except String CompletionResponseR :=
  let id := (json.idx "id").asStr.getD ""
  let model := (json.idx "model").asStr.getD ""
  match (json.idx "choices").asArr with
  | none => .error "Invalid response: missing choices"
  | some choices_json =>
    let choices := choices_json.map (fun choice_json =>
      { index := u32cast ((choice_json.idx "index").asU64.getD 0)
        message :=
          { role := ((choice_json.idx "message").idx "role").asStr.getD "assistant"
            content := ((choice_json.idx "message").idx "content").asStr.getD "" }
        finish_reason := (choice_json.idx "finish_reason").asStr })
    let usage :=
      if (json.getF "usage").isSome && !(json.idx "usage").isNullB then
        some
          { prompt_tokens := u32cast (((json.idx "usage").idx "prompt_tokens").asU64.getD 0)
            completion_tokens :=
              u32cast (((json.idx "usage").idx "completion_tokens").asU64.getD 0)
            total_tokens := u32cast (((json.idx "usage").idx "total_tokens").asU64.getD 0) }
      else none
    .ok { id := id, model := model, choices := choices, usage := usage }

/-- Rust `AnthropicProvider::parse_response` (`src/service/src/providers/anthropic.rs`,
lines 119-166).  The `u32` sum for `total_tokens` wraps, hence the outer
`u32cast`. -/
def anthropicParseResponse (json : Json) : Except String CompletionResponseR :=
  let id := ((json.getF "id").bind Json.asStr).getD ""
  let model := ((json.getF "model").bind Json.asStr).getD ""
  let content :=
    (((json.getF "content").bind Json.asArr).bind (fun arr =>
      (arr.find? (fun block =>
        ((block.getF "type").bind Json.asStr) == some "text")).bind
        (fun block => (block.getF "text").bind Json.asStr))).getD ""
  let stop_reason := (json.getF "stop_reason").bind Json.asStr
  let usage : Option UsageR := (json.getF "usage").map (fun u =>
    { prompt_tokens := u32cast (((u.getF "input_tokens").bind Json.asU64).getD 0)
      completion_tokens := u32cast (((u.getF "output_tokens").bind Json.asU64).getD 0)
      total_tokens :=
        u32cast (u32cast (((u.getF "input_tokens").bind Json.asU64).getD 0) +
          u32cast (((u.getF "output_tokens").bind Json.asU64).getD 0)) })
  .ok
    { id := id
      model := model
      choices :=
        [{ index := 0
           message := { role := "assistant", content := content }
           finish_reason := stop_reason }]
      usage := usage }

/-- The typed `usage` object of a native DashScope response
(`DashScopeUsage`, fields already deserialised as `u32`). -/
structure DashScopeUsageR where
  input_tokens : Option Nat
  output_tokens : Option Nat
deriving DecidableEq

/-- The usage mapping inside `DashScopeProvider::complete`
(`src/service/src/providers/dashscope.rs`, lines 713-717); the `u32`
sum wraps, hence the `u32cast`. -/
def dashscopeUsage (native_usage : Option DashScopeUsageR) : Option UsageR :=
  native_usage.map (fun u =>
    { prompt_tokens := u.input_tokens.getD 0
      completion_tokens := u.output_tokens.getD 0
      total_tokens := u32cast (u.input_tokens.getD 0 + u.output_tokens.getD 0) })

/-! ## A JSON text parser

Models `serde_json::from_str` on the fragment the streaming protocol
uses (null, booleans, integers, strings with simple escapes, arrays,
objects).  The fuel argument strictly decreases at every nesting step;
the entry point supplies more than enough fuel for its input. -/

/-- Skip JSON whitespace. -/
def skipWs : List Char → List Char
  | [] => []
  | c :: rest =>
    if c = ' ' || c = Char.ofNat 9 || c = Char.ofNat 10 || c = Char.ofNat 13 then
      skipWs rest
    else c :: rest

/-- Parse the body of a string literal (after the opening quote),
returning the decoded characters and the remaining input. -/
def parseStrChars : List Char → Option (List Char × List Char)
  | [] => none
  | c :: rest =>
    if c = '"' then some ([], rest)
    else if c = '\\' then
      match rest with
      | [] => none
      | e :: rest2 =>
        let decoded : Option Char :=
          if e = '"' then some '"'
          else if e = '\\' then some '\\'
          else if e = '/' then some '/'
          else if e = 'n' then some (Char.ofNat 10)
          else if e = 't' then some (Char.ofNat 9)
          else if e = 'r' then some (Char.ofNat 13)
          else if e = 'b' then some (Char.ofNat 8)
          else if e = 'f' then some (Char.ofNat 12)
          else none
        match decoded with
        | some ch => (parseStrChars rest2).map (fun p => (ch :: p.1, p.2))
        | none => none
    else (parseStrChars rest).map (fun p => (c :: p.1, p.2))

/-- Numeric value of a digit list. -/
def digitsVal (ds : List Char) : Nat :=
  ds.foldl (fun a c => a * 10 + (c.toNat - 48)) 0

/-- Parse an optionally signed integer literal. -/
def parseIntLit (cs : List Char) : Option (Json × List Char) :=
  match cs with
  | c :: rest =>
    if c = Char.ofNat 45 then
      let p := rest.span Char.isDigit
      if p.1.isEmpty then none else some (.num (-(digitsVal p.1 : Int)), p.2)
    else
      let p := cs.span Char.isDigit
      if p.1.isEmpty then none else some (.num (digitsVal p.1 : Int), p.2)
  | [] => none

mutual

/-- Parse one JSON value. -/
def parseJsonVal : Nat → List Char → Option (Json × List Char)
  | 0, _ => none
  | fuel + 1, cs =>
    match skipWs cs with
    | [] => none
    | c :: rest =>
      if c = 'n' then
        if "ull".data.isPrefixOf rest then some (.null, rest.drop 3) else none
      else if c = 't' then
        if "rue".data.isPrefixOf rest then some (.bool true, rest.drop 3) else none
      else if c = 'f' then
        if "alse".data.isPrefixOf rest then some (.bool false, rest.drop 4) else none
      else if c = '"' then
        (parseStrChars rest).map (fun p => (.str (String.mk p.1), p.2))
      else if c = Char.ofNat 91 then
        match skipWs rest with
        | c2 :: rest2 =>
          if c2 = Char.ofNat 93 then some (.arr [], rest2)
          else (parseArrElems fuel rest).map (fun p => (.arr p.1, p.2))
        | [] => none
      else if c = Char.ofNat 123 then
        match skipWs rest with
        | c2 :: rest2 =>
          if c2 = Char.ofNat 125 then some (.obj [], rest2)
          else (parseObjFields fuel rest).map (fun p => (.obj p.1, p.2))
        | [] => none
      else parseIntLit (c :: rest)

/-- Parse the comma-separated elements of a non-empty array, up to and
including the closing bracket. -/
def parseArrElems : Nat → List Char → Option (List Json × List Char)
  | 0, _ => none
  | fuel + 1, cs =>
    (parseJsonVal fuel cs).bind (fun p =>
      match skipWs p.2 with
      | c :: rest =>
        if c = ',' then (parseArrElems fuel rest).map (fun q => (p.1 :: q.1, q.2))
        else if c = Char.ofNat 93 then some ([p.1], rest)
        else none
      | [] => none)

/-- Parse the comma-separated members of a non-empty object, up to and
including the closing brace. -/
def parseObjFields : Nat → List Char → Option (List (String × Json) × List Char)
  | 0, _ => none
  | fuel + 1, cs =>
    match skipWs cs with
    | c :: rest =>
      if c = '"' then
        (parseStrChars rest).bind (fun kp =>
          match skipWs kp.2 with
          | c2 :: rest2 =>
            if c2 = ':' then
              (parseJsonVal fuel rest2).bind (fun vp =>
                match skipWs vp.2 with
                | c3 :: rest3 =>
                  if c3 = ',' then
                    (parseObjFields fuel rest3).map
                      (fun q => ((String.mk kp.1, vp.1) :: q.1, q.2))
                  else if c3 = Char.ofNat 125 then
                    some ([(String.mk kp.1, vp.1)], rest3)
                  else none
                | [] => none)
            else none
          | [] => none)
      else none
    | [] => none

end

/-- Models `serde_json::from_str` on a whole input string. -/
def jsonParse (s : String) : Option Json :=
  match parseJsonVal (s.data.length + 1) s.data with
  | some p => if (skipWs p.2).isEmpty then some p.1 else none
  | none => none

/-! ## Streaming parsers
(`src/service/src/providers/openai.rs` lines 221-279,
`src/service/src/providers/anthropic.rs` lines 238-312)

A transport chunk is either received text or a transport error; the
produced event stream merges `Ok(StreamEvent)` items and stream errors
into one event type.  The `stream::unfold` state is exactly the list of
chunks not yet pulled; when an event is returned mid-chunk the rest of
that chunk's text is dropped with the chunk, as in the source. -/

/-- One item of `bytes_stream()`. -/
inductive ChunkRes where
  | ok (text : String)
  | err (msg : String)
deriving DecidableEq

/-- One produced item: `Ok(Delta)`, `Ok(Done)` or `Err(_)`. -/
inductive StreamEventR where
  | delta (content : String)
  | done
  | error (msg : String)
deriving DecidableEq

/-- Is the event a terminal item ({Done, Error}) in the sense of the
specification? -/
def StreamEventR.isTerminal : StreamEventR → Bool
  | .delta _ => false
  | .done => true
  | .error _ => true

/-- The per-line dispatch of the OpenAI-compatible streaming loop: skip
blank and non-`data: ` lines, `[DONE]` yields Done, then on parsed JSON
inspect `choices[0]` for a non-empty `delta.content` (Delta) or a string
`finish_reason` (Done); a payload that fails to parse yields a stream
Error.  `parse` abstracts `serde_json::from_str`. -/
def openaiLineEvent (parse : String → Option Json) (rawLine : String) :
    Option StreamEventR :=
  let line := strTrim rawLine
  if line.isEmpty then none
  else if !(strStarts line "data: ") then none
  else
    let data := strDropChars line 6
    if data = "[DONE]" then some .done
    else
      match parse data with
      | none => some (.error "Failed to parse SSE")
      | some json =>
        match (json.idx "choices").asArr with
        | none => none
        | some choices =>
          match choices.head? with
          | none => none
          | some choice =>
            let deltaEvent : Option StreamEventR :=
              match (choice.getF "delta").bind (fun d => d.getF "content") with
              | some content =>
                match content.asStr with
                | some text => if text.isEmpty then none else some (.delta text)
                | none => none
              | none => none
            match deltaEvent with
            | some ev => some ev
            | none =>
              match choice.getF "finish_reason" with
              | some fr => if fr.isStrB then some .done else none
              | none => none

/-- The finite event sequence the OpenAI-compatible `complete_stream`
unfold produces, observed until the poll that finds the transport
exhausted (which synthesizes the final Done).  Within a chunk, only the
first event-producing line is honoured, as in the source. -/
def openaiEvents (parse : String → Option Json) : List ChunkRes → List StreamEventR
  | [] => [.done]
  | .err e :: rest => .error ("Stream error: " ++ e) :: openaiEvents parse rest
  | .ok text :: rest =>
    match (rustLines text).findSome? (openaiLineEvent parse) with
    | some ev => ev :: openaiEvents parse rest
    | none => openaiEvents parse rest

/-- The per-line dispatch of the Anthropic streaming loop: `[DONE]`
yields Done; otherwise the parsed event object's `type` selects a
non-empty `delta.text` Delta, a `message_stop` Done, or an `error` whose
`error.message` becomes a stream Error; unknown types are ignored and a
payload that fails to parse yields a stream Error. -/
def anthropicLineEvent (parse : String → Option Json) (rawLine : String) :
    Option StreamEventR :=
  let line := strTrim rawLine
  if line.isEmpty then none
  else if !(strStarts line "data: ") then none
  else
    let data := strDropChars line 6
    if data = "[DONE]" then some .done
    else
      match parse data with
      | none => some (.error "Failed to parse SSE")
      | some json =>
        match (json.getF "type").bind Json.asStr with
        | some "content_block_delta" =>
          (match (json.getF "delta").bind (fun d => d.getF "text") with
          | some text =>
            match text.asStr with
            | some s => if s.isEmpty then none else some (.delta s)
            | none => none
          | none => none)
        | some "message_stop" => some .done
        | some "error" =>
          let msg :=
            (((json.getF "error").bind (fun e => e.getF "message")).bind
              Json.asStr).getD "Unknown error"
          some (.error ("Anthropic error: " ++ msg))
        | _ => none

/-- The finite event sequence the Anthropic `complete_stream` unfold
produces, observed until the poll that finds the transport exhausted. -/
def anthropicEvents (parse : String → Option Json) : List ChunkRes → List StreamEventR
  | [] => [.done]
  | .err e :: rest => .error ("Stream error: " ++ e) :: anthropicEvents parse rest
  | .ok text :: rest =>
    match (rustLines text).findSome? (anthropicLineEvent parse) with
    | some ev => ev :: anthropicEvents parse rest
    | none => anthropicEvents parse rest

/-! ## PKCE helpers (`src/service/src/providers/dashscope.rs`, lines 103-155)

Bytes are `Nat` values below 256.  The XOR-shift randomness source and
the external `sha2` crate are modelled as parameters: the claims under
test are about the encoding, not about SHA-256 itself. -/

/-- The URL-safe alphabet constant `A` of `base64url_encode`. -/
def b64Alphabet : List Char :=
  "ABCDEFGHIJKLMNOPQRSTUVWXYZabcdefghijklmnopqrstuvwxyz0123456789-_".data

/-- Partition a byte list into chunks of three, a shorter final chunk
permitted; models `slice::chunks(3)`. -/
def chunks3 : List Nat → List (List Nat)
  | [] => []
  | [b0] => [[b0]]
  | [b0, b1] => [[b0, b1]]
  | b0 :: b1 :: b2 :: rest => [b0, b1, b2] :: chunks3 rest

/-- The sextet indices one loop iteration of `base64url_encode` pushes
for a chunk, written with the source's shifts and masks (`b1` and `b2`
default to zero, and the third and fourth characters are emitted only
when the chunk is long enough). -/
def b64ChunkCode : List Nat → List Nat
  | [] => []
  | [b0] => [b0 >>> 2, (b0 &&& 3) <<< 4]
  | [b0, b1] => [b0 >>> 2, ((b0 &&& 3) <<< 4) ||| (b1 >>> 4), (b1 &&& 15) <<< 2]
  | b0 :: b1 :: b2 :: _ =>
    [b0 >>> 2, ((b0 &&& 3) <<< 4) ||| (b1 >>> 4),
      ((b1 &&& 15) <<< 2) ||| (b2 >>> 6), b2 &&& 63]

/-- The hand-rolled `base64url_encode` of the source. -/
def base64url_encode (input : List Nat) : String :=
  String.mk (((chunks3 input).map b64ChunkCode).flatten.map
    (fun i => b64Alphabet.getD i ' '))

/-- Reference sextets of a chunk, following the words of the
specification (RFC 4648 base64url without padding): read the chunk as a
big-endian number, pad a short final group with zero bits, and take the
base-64 digits most significant first. -/
def b64ChunkSpec : List Nat → List Nat
  | [] => []
  | [b0] =>
    let n := b0 * 16
    [n / 64, n % 64]
  | [b0, b1] =>
    let n := (b0 * 256 + b1) * 4
    [n / 4096, n / 64 % 64, n % 64]
  | b0 :: b1 :: b2 :: _ =>
    let n := b0 * 65536 + b1 * 256 + b2
    [n / 262144, n / 4096 % 64, n / 64 % 64, n % 64]

/-- The standard unpadded base64url encoding, stated from the
specification's words; compared against the source's
`base64url_encode`. -/
def base64urlSpec (input : List Nat) : String :=
  String.mk (((chunks3 input).map b64ChunkSpec).flatten.map
    (fun i => b64Alphabet.getD i ' '))

/-- UTF-8 bytes of an ASCII string (`str::as_bytes`); every character
produced by the encoder is ASCII, where byte and code point agree. -/
def strBytes (s : String) : List Nat :=
  s.data.map Char.toNat

/-- Rust `generate_pkce_pair`: encode the 32 random bytes as the verifier,
hash the verifier's bytes (`sha2_digest`, modelled by the parameter
`sha`), and encode the digest as the challenge. -/
def generate_pkce_pair (sha : List Nat → List Nat) (randomBytes : List Nat) :
    String × String :=
  let verifier := base64url_encode randomBytes
  let digest := sha (strBytes verifier)
  let challenge := base64url_encode digest
  (verifier, challenge)

/-! ## Shared helper lemmas -/

/-- Helper: `splitChar` never returns the empty list. -/
theorem splitChar_ne_nil (sep : Char) (l : List Char) : splitChar sep l ≠ [] := by
  cases l with
  | nil => simp [splitChar]
  | cons c rest =>
    simp only [splitChar]
    cases splitChar sep rest with
    | nil => simp
    | cons piece pieces =>
      by_cases h : c = sep <;> simp [h]

/-- Splitting a separator-free list yields that single piece. -/
theorem splitChar_no_sep (sep : Char) (xs : List Char) (h : sep ∉ xs) :
    splitChar sep xs = [xs] := by
  induction xs with
  | nil => rfl
  | cons c rest ih =>
    have hc : ¬ c = sep := fun he => h (he ▸ List.mem_cons_self c rest)
    have hr : sep ∉ rest := fun hm => h (List.mem_cons_of_mem c hm)
    simp only [splitChar, ih hr]
    simp [hc]

/-- Splitting at the first separator exposes the separator-free head. -/
theorem splitChar_append (sep : Char) (xs ys : List Char) (h : sep ∉ xs) :
    splitChar sep (xs ++ sep :: ys) = xs :: splitChar sep ys := by
  induction xs with
  | nil =>
    obtain ⟨piece, pieces, heq⟩ := List.exists_cons_of_ne_nil (splitChar_ne_nil sep ys)
    simp [splitChar, heq]
  | cons c rest ih =>
    have hc : ¬ c = sep := fun he => h (he ▸ List.mem_cons_self c rest)
    have hr : sep ∉ rest := fun hm => h (List.mem_cons_of_mem c hm)
    simp only [List.cons_append, splitChar, List.append_eq]
    rw [ih hr]
    simp [hc]

/-- The head piece of a split is the take-while up to the separator. -/
theorem splitChar_head (sep : Char) (l : List Char) :
    (splitChar sep l).head? = some (l.takeWhile (fun c => c != sep)) := by
  induction l with
  | nil => rfl
  | cons c rest ih =>
    simp only [splitChar]
    obtain ⟨piece, pieces, heq⟩ := List.exists_cons_of_ne_nil (splitChar_ne_nil sep rest)
    rw [heq] at ih ⊢
    simp only [List.head?] at ih
    by_cases h : c = sep
    · simp [h, List.takeWhile]
    · simp only [if_neg h, List.head?, List.takeWhile]
      have hb : (c != sep) = true := by simp [bne_iff_ne]; exact h
      simp [hb, Option.some_inj.mp ih]

/-- Take-while stops no later than an element falsifying the test. -/
theorem takeWhile_append_stop (pred : Char → Bool) (xs : List Char) (y : Char)
    (ys : List Char) (h : pred y = false) :
    (xs ++ y :: ys).takeWhile pred = xs.takeWhile pred := by
  induction xs with
  | nil => simp [List.takeWhile, h]
  | cons c rest ih =>
    simp only [List.cons_append, List.takeWhile]
    cases pred c <;> simp [ih]

/-! ## Claim C1 -/

/-- C1: FALSIFIED (code bug).  The claim says each
`record_success_with_breakdown` / `record_failure_with_breakdown` call
accumulates onto the per-provider entry, so after two successes the
entry should report `requests_total = 2`.  The source updates a
detached clone and only inserts it when the key is absent, so the entry
freezes at the first call's values.  This theorem evaluates the model
at the failing input: after two recorded successes (and, for the
failure variant, two recorded failures) the per-provider entry still
reports `requests_total = 1` while the global counter reports 2. -/
theorem claim1_per_provider_breakdown_lost_update :
    ((get_provider_metrics
      (record_success_with_breakdown
        (record_success_with_breakdown emptyCollector "openai" (some "gpt-4")
          100 50 200 (5/100))
        "openai" (some "gpt-4") 200 100 300 (1/10))).map
      (fun r => (r.requests_total, r.prompt_tokens_total, r.completion_tokens_total))
      = [(1, 100, 50)]) ∧
    ((record_success_with_breakdown
      (record_success_with_breakdown emptyCollector "openai" (some "gpt-4")
        100 50 200 (5/100))
      "openai" (some "gpt-4") 200 100 300 (1/10)).requests_total = 2) ∧
    ((get_provider_metrics
      (record_failure_with_breakdown
        (record_failure_with_breakdown emptyCollector "openai" none 10)
        "openai" none 10)).map
      (fun r => (r.requests_total, r.requests_failed)) = [(1, 1)]) := by
  decide

/-! ## Claim C6 -/

/-- C6 counterexample: at `cost_cents = 1/64` (a value exactly
representable in `f64`, with exact product `25/16 = 1.5625`), the
recorded fixed-point increment is the truncation 1, whereas the claimed
`round(cost_cents * 100)` is 2. -/
theorem claim6_cost_rounding_counterexample :
    (record_success emptyCollector 0 0 0 (1/64)).cost_total = 1 ∧
    round ((1/64 : ℚ) * 100) = 2 := by
  constructor
  · show emptyCollector.cost_total + costFixed (1/64) = 1
    norm_num [emptyCollector, costFixed]
  · norm_num [round_eq]

/-- C6 as amended: each `record_success` adds the truncation toward
zero of `cost_cents * 100` (the Rust `as u64` cast) to the fixed-point
counter — so after any sequence of calls the counter holds the sum of
those truncations — and `snapshot` reports `cost_total` as the counter
divided by 100. -/
theorem claim6_cost_truncation_amended (c : CollectorR)
    (calls : List (Nat × Nat × Nat × ℚ)) (ws we : Nat) :
    (snapshot
      (calls.foldl (fun acc t => record_success acc t.1 t.2.1 t.2.2.1 t.2.2.2) c)
      ws we).cost_total =
    ((c.cost_total + (calls.map (fun t => costFixed t.2.2.2)).sum : Nat) : ℚ) / 100 := by
  induction calls generalizing c with
  | nil => simp [snapshot]
  | cons t rest ih =>
    simp only [List.foldl_cons, List.map_cons, List.sum_cons]
    rw [ih]
    simp [record_success, Nat.add_assoc]

/-! ## Claim C7 -/

/-- An example rule map whose single rule routes directly to the
`default` provider, separating "no rule exists" from "returns
`("default", a)`". -/
def routeRulesSelfEx : String → Option RouteRuleR := fun a =>
  if a = "m" then some { aliasName := "m", targets := [⟨"default", "m"⟩] } else none

/-- C7 counterexample: a rule for `"m"` exists, yet `resolve_alias`
still returns `("default", "m")` because that is the rule's first
target — so "returns `("default", a)` iff no rule exists" fails in the
right-to-left direction. -/
theorem claim7_resolve_alias_iff_counterexample :
    resolve_alias routeRulesSelfEx "m" = .ok ("default", "m") ∧
    routeRulesSelfEx "m" ≠ none := by
  constructor
  · simp [resolve_alias, routeRulesSelfEx]
  · simp [routeRulesSelfEx]

/-- C7 as amended: `resolve_alias(a)` returns `("default", a)` IF no
rule exists for `a` (the converse can fail when a rule's first target
is itself `("default", a)`); when a rule with non-empty targets exists
it returns the first target; and it fails iff a rule with an empty
target list exists. -/
theorem claim7_resolve_alias_amended (rules : String → Option RouteRuleR) (a : String) :
    (rules a = none → resolve_alias rules a = .ok ("default", a)) ∧
    (∀ rule t ts, rules a = some rule → rule.targets = t :: ts →
      resolve_alias rules a = .ok (t.provider_id, t.model_id)) ∧
    ((∃ rule, rules a = some rule ∧ rule.targets = []) ↔
      ∃ msg, resolve_alias rules a = .error msg) := by
  refine ⟨?_, ?_, ?_⟩
  · intro hn
    simp [resolve_alias, hn]
  · intro rule t ts hsome heq
    simp [resolve_alias, hsome, heq]
  · constructor
    · rintro ⟨rule, hsome, hempty⟩
      exact ⟨"No targets for alias: " ++ a, by simp [resolve_alias, hsome, hempty]⟩
    · rintro ⟨msg, hmsg⟩
      cases hr : rules a with
      | none => simp [resolve_alias, hr] at hmsg
      | some rule =>
        cases ht : rule.targets with
        | nil => exact ⟨rule, rfl, ht⟩
        | cons t ts => simp [resolve_alias, hr, ht] at hmsg

/-- Example rules for the C7 witness: the failover scenario of the
specification. -/
def routeRulesProdEx : String → Option RouteRuleR := fun a =>
  if a = "prod" then
    some { aliasName := "prod",
           targets := [⟨"openai", "gpt-4"⟩, ⟨"anthropic", "claude-3"⟩] }
  else none

/-- C7 witness: the amended theorem applied at concrete inputs. -/
theorem claim7_resolve_alias_amended_witness :
    resolve_alias routeRulesProdEx "prod" = .ok ("openai", "gpt-4") ∧
    resolve_alias routeRulesProdEx "other" = .ok ("default", "other") := by
  constructor
  · exact (claim7_resolve_alias_amended routeRulesProdEx "prod").2.1
      { aliasName := "prod",
        targets := [⟨"openai", "gpt-4"⟩, ⟨"anthropic", "claude-3"⟩] }
      ⟨"openai", "gpt-4"⟩ [⟨"anthropic", "claude-3"⟩] (by decide) rfl
  · exact (claim7_resolve_alias_amended routeRulesProdEx "other").1 (by decide)

/-! ## Claim C8 -/

/-- C8 counterexample: `remove_provider` deletes only the `providers`
entry; the profile id survives in `provider_index`. -/
theorem claim8_remove_provider_counterexample :
    "p" ∈ (remove_provider
      { provider_index := ["p"], providers := [("p", "cfg")] } "p").provider_index ∧
    providersHas (remove_provider
      { provider_index := ["p"], providers := [("p", "cfg")] } "p") "p" = false := by
  decide

/-- C8 as amended: `remove_provider` removes the profile from
`StoreData.providers` only; composing it with the separate
`remove_from_provider_index` helper removes the profile from both
`providers` and `provider_index`. -/
theorem claim8_remove_provider_amended (d : StoreDataR) (p : String) :
    providersHas (remove_provider d p) p = false ∧
    providersHas (remove_from_provider_index (remove_provider d p) p) p = false ∧
    p ∉ (remove_from_provider_index (remove_provider d p) p).provider_index := by
  refine ⟨?_, ?_, ?_⟩
  · simp [providersHas, remove_provider, List.any_eq_true, List.mem_filter]
  · simp [providersHas, remove_provider, remove_from_provider_index,
      List.any_eq_true, List.mem_filter]
  · simp [remove_provider, remove_from_provider_index, List.mem_filter]

/-! ## Claim C10 -/

/-- C10 counterexample: provider `"p"` is colon-free and the recorded
model id `":x"` is neither absent nor empty, yet the reported model id
is `none` (the second colon-piece of the key `"p::x"` is the empty
piece between the two colons). -/
theorem claim10_breakdown_key_counterexample :
    (get_provider_metrics
      (record_success_with_breakdown emptyCollector "p" (some ":x") 1 1 0 0)).map
      (fun r => (r.provider_id, r.model_id)) = [("p", none)] ∧
    ¬ ((some ":x" : Option String) = none ∨ (":x" : String) = "") := by
  decide

/-- C10 as amended: for a single breakdown recorded on a fresh
collector, a colon-free provider id is reported unchanged, and the
reported model id is `none` iff the recorded model id was absent, the
empty string, or a string beginning with a colon (the amendment the
counterexample forces); for any provider id, the reported provider id
is the piece of it before its first colon. -/
theorem claim10_breakdown_key_amended (p : String) (m : Option String) :
    (Char.ofNat 58 ∉ p.data →
      ∃ r, get_provider_metrics
        (record_success_with_breakdown emptyCollector p m 1 1 0 0) = [r] ∧
        r.provider_id = p ∧
        (r.model_id = none ↔
          ((m.getD "").data = [] ∨ (m.getD "").data.head? = some (Char.ofNat 58)))) ∧
    (∀ r ∈ get_provider_metrics
        (record_success_with_breakdown emptyCollector p m 1 1 0 0),
      r.provider_id = String.mk (p.data.takeWhile (fun c => c != Char.ofNat 58))) := by
  obtain ⟨entry, hpm⟩ : ∃ e,
      (record_success_with_breakdown emptyCollector p m 1 1 0 0).provider_metrics
        = [(breakdownKey p m, e)] := ⟨_, rfl⟩
  have hkey : (breakdownKey p m).data
      = p.data ++ Char.ofNat 58 :: (m.getD "").data := by
    show (p ++ ":" ++ m.getD "").data = _
    rw [String.data_append, String.data_append]
    simp
  have hg : get_provider_metrics (record_success_with_breakdown emptyCollector p m 1 1 0 0)
      = [{ provider_id :=
             String.mk ((splitChar (Char.ofNat 58) (breakdownKey p m).data).headD [])
           model_id :=
             match (splitChar (Char.ofNat 58) (breakdownKey p m).data).get? 1 with
             | some piece => if piece.isEmpty then none else some (String.mk piece)
             | none => none
           requests_total := entry.requests_total
           requests_failed := entry.requests_failed
           prompt_tokens_total := entry.prompt_tokens
           completion_tokens_total := entry.completion_tokens
           cost_total := (entry.cost_total : ℚ) / 100 }] := by
    rw [get_provider_metrics, hpm]
    rfl
  constructor
  · intro hp
    have hsplit : splitChar (Char.ofNat 58) (breakdownKey p m).data
        = p.data :: splitChar (Char.ofNat 58) (m.getD "").data := by
      rw [hkey]
      exact splitChar_append _ _ _ hp
    refine ⟨_, hg, ?_, ?_⟩
    · simp [hsplit]
    · rw [hsplit]
      have h1 : (p.data :: splitChar (Char.ofNat 58) (m.getD "").data).get? 1
          = (splitChar (Char.ofNat 58) (m.getD "").data).head? := by
        rw [List.get?_cons_succ, List.get?_zero]
      rw [h1, splitChar_head]
      cases hmd : (m.getD "").data with
      | nil => simp [List.takeWhile]
      | cons c t =>
        by_cases hc : c = Char.ofNat 58
        · subst hc
          simp [List.takeWhile]
        · have hb : (c != Char.ofNat 58) = true := by simp [bne_iff_ne]; exact hc
          simp [List.takeWhile, hb, hc]
  · intro r hr
    rw [hg] at hr
    simp only [List.mem_singleton] at hr
    subst hr
    obtain ⟨piece, pieces, heq⟩ :=
      List.exists_cons_of_ne_nil (splitChar_ne_nil (Char.ofNat 58) (breakdownKey p m).data)
    have hhead := splitChar_head (Char.ofNat 58) (breakdownKey p m).data
    rw [heq] at hhead
    simp only [List.head?] at hhead
    have hpiece : piece = (breakdownKey p m).data.takeWhile (fun c => c != Char.ofNat 58) :=
      Option.some_inj.mp hhead
    have htake : (breakdownKey p m).data.takeWhile (fun c => c != Char.ofNat 58)
        = p.data.takeWhile (fun c => c != Char.ofNat 58) := by
      rw [hkey]
      exact takeWhile_append_stop _ _ _ _ (by simp)
    simp [heq, hpiece, htake]

/-- C10 witness: the amended theorem applied at provider `"openai"`
and model `"gpt-4"`. -/
theorem claim10_breakdown_key_amended_witness :
    ∃ r, get_provider_metrics
        (record_success_with_breakdown emptyCollector "openai" (some "gpt-4") 1 1 0 0)
        = [r] ∧
      r.provider_id = "openai" ∧
      (r.model_id = none ↔
        (((some "gpt-4" : Option String).getD "").data = [] ∨
          ((some "gpt-4" : Option String).getD "").data.head? = some (Char.ofNat 58))) :=
  (claim10_breakdown_key_amended "openai" (some "gpt-4")).1 (by decide)

/-! ## Claim C2 -/

/-- Boolean shape of the retry classifier's nested conditionals. -/
theorem iteOrFalse (a b : Bool) :
    (if a then true else if b then true else false) = (a || b) := by
  cases a <;> cases b <;> rfl

/-- Invariant of the retry loop: with `fuel = max_retries - k` the loop
makes between one and `fuel + 1` further invocations, returns the final
invocation's result, every non-final invocation failed with a
retryable error, and a retryable final error means the fuel was
exhausted. -/
theorem withRetryLoop_spec {α : Type} (f : Nat → Except String α) (fuel : Nat) :
    ∀ k,
      k + 1 ≤ (withRetryLoop f k fuel).2 ∧
      (withRetryLoop f k fuel).2 ≤ k + 1 + fuel ∧
      (withRetryLoop f k fuel).1 = f ((withRetryLoop f k fuel).2 - 1) ∧
      (∀ i, k ≤ i → i + 1 < (withRetryLoop f k fuel).2 →
        ∃ e, f i = .error e ∧ isRetryable e = true) ∧
      (∀ e, (withRetryLoop f k fuel).1 = .error e → isRetryable e = true →
        (withRetryLoop f k fuel).2 = k + 1 + fuel) := by
  induction fuel with
  | zero =>
    intro k
    rw [withRetryLoop]
    cases hf : f k with
    | ok v =>
      dsimp only
      refine ⟨le_refl _, by omega, by simp [hf], ?_, ?_⟩
      · intro i hki hlt
        exact absurd hlt (by omega)
      · intro e he
        exact (Except.noConfusion he)
    | error e =>
      dsimp only
      refine ⟨le_refl _, by omega, by simp [hf], ?_, ?_⟩
      · intro i hki hlt
        exact absurd hlt (by omega)
      · intro e2 _ _
        rfl
  | succ fuel ih =>
    intro k
    rw [withRetryLoop]
    cases hf : f k with
    | ok v =>
      dsimp only
      refine ⟨le_refl _, by omega, by simp [hf], ?_, ?_⟩
      · intro i hki hlt
        exact absurd hlt (by omega)
      · intro e he
        exact (Except.noConfusion he)
    | error e =>
      dsimp only
      by_cases hre : isRetryable e = true
      · rw [if_pos hre]
        obtain ⟨h1, h2, h3, h4, h5⟩ := ih (k + 1)
        refine ⟨by omega, by omega, h3, ?_, ?_⟩
        · intro i hki hlt
          rcases Nat.eq_or_lt_of_le hki with heq | hgt
          · exact ⟨e, heq ▸ hf, hre⟩
          · exact h4 i hgt hlt
        · intro e2 he2 hre2
          rw [h5 e2 he2 hre2]
          omega
      · rw [if_neg hre]
        refine ⟨le_refl _, by omega, by simp [hf], ?_, ?_⟩
        · intro i hki hlt
          exact absurd hlt (by omega)
        · intro e2 he2 hre2
          cases he2
          exact absurd hre2 hre

/-- C2: for every `max_retries` and every operation (modelled as the
sequence of its invocation results), `with_retry` invokes the operation
`1 + attempts_used` times with `attempts_used ∈ [0, max_retries]`,
returns the final invocation's result, retries only on invocations that
failed with a retryable error (so any other error returns at once), and
stops early only on a success or a non-retryable error; moreover the
classifier accepts exactly the messages that case-insensitively contain
one of `connection`, `timeout`, `dns`, `network`, `HTTP 429`, `HTTP
500`, `HTTP 502`, `HTTP 503`, `HTTP 504`. -/
theorem claim2_with_retry_spec {α : Type} (max_retries : Nat)
    (f : Nat → Except String α) :
    1 ≤ (with_retry max_retries f).2 ∧
    (with_retry max_retries f).2 ≤ 1 + max_retries ∧
    (with_retry max_retries f).1 = f ((with_retry max_retries f).2 - 1) ∧
    (∀ i, i + 1 < (with_retry max_retries f).2 →
      ∃ e, f i = .error e ∧ isRetryable e = true) ∧
    (∀ e, (with_retry max_retries f).1 = .error e → isRetryable e = true →
      (with_retry max_retries f).2 = 1 + max_retries) ∧
    (∀ msg, isRetryable msg =
      (["connection", "timeout", "dns", "network", "HTTP 429", "HTTP 500",
        "HTTP 502", "HTTP 503", "HTTP 504"].any
        (fun pat => strContainsSub (strToLower msg) (strToLower pat)))) := by
  obtain ⟨h1, h2, h3, h4, h5⟩ := withRetryLoop_spec f max_retries 0
  refine ⟨h1, h2, h3, fun i hi => h4 i (Nat.zero_le i) hi,
    fun e he hr => h5 e he hr, ?_⟩
  intro msg
  have e1 : strToLower "connection" = "connection" := rfl
  have e2 : strToLower "timeout" = "timeout" := rfl
  have e3 : strToLower "dns" = "dns" := rfl
  have e4 : strToLower "network" = "network" := rfl
  have e5 : strToLower "HTTP 429" = "http 429" := rfl
  have e6 : strToLower "HTTP 500" = "http 500" := rfl
  have e7 : strToLower "HTTP 502" = "http 502" := rfl
  have e8 : strToLower "HTTP 503" = "http 503" := rfl
  have e9 : strToLower "HTTP 504" = "http 504" := rfl
  simp only [List.any_cons, List.any_nil, Bool.or_false,
    e1, e2, e3, e4, e5, e6, e7, e8, e9]
  show (if _ then true else if _ then true else false) = _
  rw [iteOrFalse]
  simp [Bool.or_assoc]

/-- The retry scenario of the specification: two transient HTTP 503
failures followed by a success. -/
def retryOpEx : Nat → Except String Nat := fun i =>
  if i < 2 then .error "HTTP 503 Service unavailable" else .ok 42

/-- C2 witness: the theorem applied to the concrete scenario, with the
hypothesis evaluated by `decide`. -/
theorem claim2_with_retry_spec_witness :
    (∃ e, retryOpEx 0 = .error e ∧ isRetryable e = true) ∧
    (with_retry 3 retryOpEx).1 = retryOpEx ((with_retry 3 retryOpEx).2 - 1) := by
  constructor
  · exact (claim2_with_retry_spec 3 retryOpEx).2.2.2.1 0 (by decide)
  · exact (claim2_with_retry_spec 3 retryOpEx).2.2.1

/-! ## Claim C3 -/

/-- Prepending an item preserves a known last element. -/
theorem getLast?_cons_of_some {β : Type} (x : β) (l : List β) (v : β)
    (h : l.getLast? = some v) : (x :: l).getLast? = some v := by
  cases l with
  | nil => simp at h
  | cons y t =>
    rw [List.getLast?_cons_cons]
    exact h

/-- Every finite observation of the OpenAI-compatible streaming unfold
ends with the synthesized Done. -/
theorem openaiEvents_ends_done (parse : String → Option Json) :
    ∀ chunks, (openaiEvents parse chunks).getLast? = some .done := by
  intro chunks
  induction chunks with
  | nil => rfl
  | cons c rest ih =>
    cases c with
    | err e =>
      simp only [openaiEvents]
      exact getLast?_cons_of_some _ _ _ ih
    | ok text =>
      cases hfind : (rustLines text).findSome? (openaiLineEvent parse) with
      | some ev =>
        simp only [openaiEvents, hfind]
        exact getLast?_cons_of_some _ _ _ ih
      | none =>
        simp only [openaiEvents, hfind]
        exact ih

/-- Every finite observation of the Anthropic streaming unfold ends
with the synthesized Done. -/
theorem anthropicEvents_ends_done (parse : String → Option Json) :
    ∀ chunks, (anthropicEvents parse chunks).getLast? = some .done := by
  intro chunks
  induction chunks with
  | nil => rfl
  | cons c rest ih =>
    cases c with
    | err e =>
      simp only [anthropicEvents]
      exact getLast?_cons_of_some _ _ _ ih
    | ok text =>
      cases hfind : (rustLines text).findSome? (anthropicLineEvent parse) with
      | some ev =>
        simp only [anthropicEvents, hfind]
        exact getLast?_cons_of_some _ _ _ ih
      | none =>
        simp only [anthropicEvents, hfind]
        exact ih

/-- A known last element is a member. -/
theorem mem_of_getLast?_some {β : Type} (l : List β) (v : β)
    (h : l.getLast? = some v) : v ∈ l := by
  obtain ⟨hne, heq⟩ := List.mem_getLast?_eq_getLast (Option.mem_def.mpr h)
  rw [heq]
  exact List.getLast_mem hne

/-- C3 counterexample: two transport chunks each carrying `data: [DONE]`
produce the event sequence `[Done, Done, Done]` (the two parsed Dones
plus the synthesized end-of-transport Done): three terminal items, and
items following the first terminal — so the claimed "exactly one
terminal item and nothing after it" is false. -/
theorem claim3_stream_terminal_counterexample :
    openaiEvents jsonParse [.ok "data: [DONE]\n\n", .ok "data: [DONE]\n\n"]
      = [.done, .done, .done] ∧
    ¬ ((openaiEvents jsonParse
        [.ok "data: [DONE]\n\n", .ok "data: [DONE]\n\n"]).countP
        (fun ev => ev.isTerminal) = 1) := by
  constructor
  · decide
  · decide

/-- C3 as amended: for every chunk sequence (and any JSON parser), the
produced event sequence of either streaming parser contains at least
one terminal item and its final item is always a Done (synthesized when
the transport is exhausted); however a terminal item need not be last —
a stream Error does not terminate the produced sequence, and a Done may
be followed by further items. -/
theorem claim3_stream_terminal_amended (parse : String → Option Json)
    (chunks : List ChunkRes) :
    (openaiEvents parse chunks).getLast? = some .done ∧
    (∃ ev ∈ openaiEvents parse chunks, ev.isTerminal = true) ∧
    (anthropicEvents parse chunks).getLast? = some .done ∧
    (∃ ev ∈ anthropicEvents parse chunks, ev.isTerminal = true) := by
  refine ⟨openaiEvents_ends_done parse chunks, ?_, anthropicEvents_ends_done parse chunks, ?_⟩
  · exact ⟨.done, mem_of_getLast?_some _ _ (openaiEvents_ends_done parse chunks), rfl⟩
  · exact ⟨.done, mem_of_getLast?_some _ _ (anthropicEvents_ends_done parse chunks), rfl⟩

/-! ## Claim C4 -/

/-- C4: FALSIFIED in its per-line part (code bug).  The first conjunct
is the claim's concrete scenario, which does hold: the single chunk
with one delta frame and the `[DONE]` sentinel produces
`[Delta("Hi"), Done]` (though the Done is the synthesized one — the
`[DONE]` line itself is discarded with the rest of the chunk once the
Delta is returned).  The second conjunct is the failing input: a chunk
carrying two delta lines loses the second one, producing
`[Delta("A"), Done]` where per-line handling requires
`[Delta("A"), Delta("B"), Done]`. -/
theorem claim4_sse_line_handling_eval :
    openaiEvents jsonParse
      [.ok "data: \x7b\"choices\":[\x7b\"delta\":\x7b\"content\":\"Hi\"\x7d\x7d]\x7d\n\ndata: [DONE]\n\n"]
      = [.delta "Hi", .done] ∧
    openaiEvents jsonParse
      [.ok "data: \x7b\"choices\":[\x7b\"delta\":\x7b\"content\":\"A\"\x7d\x7d]\x7d\ndata: \x7b\"choices\":[\x7b\"delta\":\x7b\"content\":\"B\"\x7d\x7d]\x7d\n\ndata: [DONE]\n\n"]
      = [.delta "A", .done] := by
  constructor
  · decide
  · decide

/-! ## Claim C5 -/

/-- An OpenAI-shaped backend response whose usage object reports an
inconsistent total. -/
def openaiBadUsageJson : Json :=
  .obj [("choices", .arr []),
        ("usage", .obj [("prompt_tokens", .num 1), ("completion_tokens", .num 2),
                        ("total_tokens", .num 4)])]

/-- An Anthropic-shaped backend response whose token counts overflow
the `u32` sum. -/
def anthropicOverflowJson : Json :=
  .obj [("usage", .obj [("input_tokens", .num 2147483648),
                        ("output_tokens", .num 2147483648)])]

/-- C5 counterexample: the OpenAI-compatible parser copies the
backend's `total_tokens` verbatim, so a parseable response with
`prompt = 1`, `completion = 2`, `total = 4` yields a `Usage` violating
`total = prompt + completion`; and the Anthropic parser's `u32` sum
wraps, so `input = output = 2^31` yields `total = 0`. -/
theorem claim5_usage_total_counterexample :
    (openaiParseResponse openaiBadUsageJson
      = .ok { id := "", model := "", choices := [],
              usage := some { prompt_tokens := 1, completion_tokens := 2,
                              total_tokens := 4 } }) ∧
    ¬ ((4 : Nat) = 1 + 2) ∧
    (anthropicParseResponse anthropicOverflowJson
      = .ok { id := "", model := "",
              choices := [{ index := 0,
                            message := { role := "assistant", content := "" },
                            finish_reason := none }],
              usage := some { prompt_tokens := 2147483648,
                              completion_tokens := 2147483648,
                              total_tokens := 0 } }) ∧
    ¬ ((0 : Nat) = 2147483648 + 2147483648) := by
  refine ⟨?_, by decide, ?_, by decide⟩
  · rfl
  · rfl

/-- C5 as amended: the Anthropic and DashScope adapters construct
`total_tokens` as the `u32` sum `(prompt + completion) mod 2^32` — equal
to `prompt + completion` whenever the sum fits in a `u32` — while the
OpenAI-compatible parser copies the backend's three usage fields
verbatim, so its responses satisfy the invariant exactly when the
backend's own usage object does. -/
theorem claim5_usage_total_amended :
    (∀ j r u, anthropicParseResponse j = .ok r → r.usage = some u →
      u.total_tokens = (u.prompt_tokens + u.completion_tokens) % 4294967296) ∧
    (∀ nu u, dashscopeUsage nu = some u →
      u.total_tokens = (u.prompt_tokens + u.completion_tokens) % 4294967296) ∧
    (∀ j r u, openaiParseResponse j = .ok r → r.usage = some u →
      (u.prompt_tokens = u32cast (((j.idx "usage").idx "prompt_tokens").asU64.getD 0) ∧
       u.completion_tokens =
         u32cast (((j.idx "usage").idx "completion_tokens").asU64.getD 0) ∧
       u.total_tokens = u32cast (((j.idx "usage").idx "total_tokens").asU64.getD 0))) := by
  refine ⟨?_, ?_, ?_⟩
  · intro j r u hok hu
    simp only [anthropicParseResponse, Except.ok.injEq] at hok
    subst hok
    cases hju : j.getF "usage" with
    | none => simp [hju] at hu
    | some uj =>
      simp only [hju, Option.map_some', Option.some_inj] at hu
      subst hu
      rfl
  · intro nu u hu
    cases hnu : nu with
    | none => rw [hnu] at hu; simp [dashscopeUsage] at hu
    | some uj =>
      rw [hnu] at hu
      simp only [dashscopeUsage, Option.map_some', Option.some_inj] at hu
      subst hu
      rfl
  · intro j r u hok hu
    cases harr : (j.idx "choices").asArr with
    | none => simp [openaiParseResponse, harr] at hok
    | some choices =>
      simp only [openaiParseResponse, harr, Except.ok.injEq] at hok
      subst hok
      by_cases hcond : ((j.getF "usage").isSome && !(j.idx "usage").isNullB) = true
      · simp only [hcond, if_true, Option.some_inj] at hu
        subst hu
        exact ⟨rfl, rfl, rfl⟩
      · simp [hcond] at hu

/-- C5 witness: the amended theorem's Anthropic conjunct applied to a
small concrete response with three input and four output tokens. -/
theorem claim5_usage_total_amended_witness :
    ({ prompt_tokens := 3, completion_tokens := 4, total_tokens := 7 } : UsageR).total_tokens
      = (({ prompt_tokens := 3, completion_tokens := 4, total_tokens := 7 } : UsageR).prompt_tokens
        + ({ prompt_tokens := 3, completion_tokens := 4,
             total_tokens := 7 } : UsageR).completion_tokens) % 4294967296 :=
  claim5_usage_total_amended.1
    (.obj [("usage", .obj [("input_tokens", .num 3), ("output_tokens", .num 4)])])
    { id := "", model := "",
      choices := [{ index := 0, message := { role := "assistant", content := "" },
                    finish_reason := none }],
      usage := some { prompt_tokens := 3, completion_tokens := 4, total_tokens := 7 } }
    { prompt_tokens := 3, completion_tokens := 4, total_tokens := 7 }
    (by rfl) (by rfl)

/-! ## Claim C9 -/

/-- Bitwise or of a shifted-in high part and a small low part is their
sum. -/
theorem lor_disjoint (a b k : Nat) (hb : b < 2 ^ k) :
    (2 ^ k * a) ||| b = 2 ^ k * a + b := by
  apply Nat.eq_of_testBit_eq
  intro j
  rw [Nat.testBit_lor, Nat.testBit_mul_pow_two_add a hb j]
  have h0 : (2 ^ k * a).testBit j = if j < k then false else a.testBit (j - k) := by
    have := Nat.testBit_mul_pow_two_add a
      (Nat.pos_pow_of_pos k (by norm_num) : 0 < 2 ^ k) j
    simpa using this
  by_cases hj : j < k
  · simp [h0, hj]
  · have hbf : b.testBit j = false := by
      apply Nat.testBit_lt_two_pow
      calc b < 2 ^ k := hb
        _ ≤ 2 ^ j := Nat.pow_le_pow_right (by norm_num) (Nat.le_of_not_lt hj)
    simp [h0, hj, hbf]

/-- The source's shifted-and-masked sextets agree with the reference
base-64 digits on every chunk of bytes. -/
theorem b64Chunk_eq (chunk : List Nat) (h : ∀ b ∈ chunk, b < 256) :
    b64ChunkCode chunk = b64ChunkSpec chunk := by
  match chunk with
  | [] => rfl
  | [b0] =>
    have h0 : b0 < 256 := h b0 (by simp)
    have m1 : b0 &&& 3 = b0 % 4 := Nat.and_pow_two_sub_one_eq_mod b0 2
    simp only [b64ChunkCode, b64ChunkSpec, List.cons.injEq, and_true]
    refine ⟨by omega, ?_⟩
    rw [m1, Nat.shiftLeft_eq]
    omega
  | [b0, b1] =>
    have h0 : b0 < 256 := h b0 (by simp)
    have h1 : b1 < 256 := h b1 (by simp)
    have m1 : b0 &&& 3 = b0 % 4 := Nat.and_pow_two_sub_one_eq_mod b0 2
    have m2 : b1 &&& 15 = b1 % 16 := Nat.and_pow_two_sub_one_eq_mod b1 4
    have e1 : (b0 &&& 3) <<< 4 = 2 ^ 4 * (b0 &&& 3) := by
      rw [Nat.shiftLeft_eq]; ring
    have e2 : b1 >>> 4 < 2 ^ 4 := by omega
    simp only [b64ChunkCode, b64ChunkSpec, List.cons.injEq, and_true]
    refine ⟨by omega, ?_, ?_⟩
    · rw [e1, lor_disjoint _ _ _ e2, m1]
      omega
    · rw [m2, Nat.shiftLeft_eq]
      omega
  | b0 :: b1 :: b2 :: rest =>
    have h0 : b0 < 256 := h b0 (by simp)
    have h1 : b1 < 256 := h b1 (by simp)
    have h2 : b2 < 256 := h b2 (by simp)
    have m1 : b0 &&& 3 = b0 % 4 := Nat.and_pow_two_sub_one_eq_mod b0 2
    have m2 : b1 &&& 15 = b1 % 16 := Nat.and_pow_two_sub_one_eq_mod b1 4
    have m3 : b2 &&& 63 = b2 % 64 := Nat.and_pow_two_sub_one_eq_mod b2 6
    have e1 : (b0 &&& 3) <<< 4 = 2 ^ 4 * (b0 &&& 3) := by
      rw [Nat.shiftLeft_eq]; ring
    have e2 : b1 >>> 4 < 2 ^ 4 := by omega
    have e3 : (b1 &&& 15) <<< 2 = 2 ^ 2 * (b1 &&& 15) := by
      rw [Nat.shiftLeft_eq]; ring
    have e4 : b2 >>> 6 < 2 ^ 2 := by omega
    simp only [b64ChunkCode, b64ChunkSpec, List.cons.injEq, and_true]
    refine ⟨by omega, ?_, ?_, by omega⟩
    · rw [e1, lor_disjoint _ _ _ e2, m1]
      omega
    · rw [e3, lor_disjoint _ _ _ e4, m2]
      omega

/-- Members of a chunk come from the chunked list. -/
theorem chunks3_mem : ∀ (l : List Nat) (chunk : List Nat), chunk ∈ chunks3 l →
    ∀ b ∈ chunk, b ∈ l
  | [], chunk, h => by simp [chunks3] at h
  | [b0], chunk, h => by
    simp only [chunks3, List.mem_singleton] at h
    subst h
    exact fun b hb => hb
  | [b0, b1], chunk, h => by
    simp only [chunks3, List.mem_singleton] at h
    subst h
    exact fun b hb => hb
  | b0 :: b1 :: b2 :: rest, chunk, h => by
    simp only [chunks3, List.mem_cons] at h
    rcases h with heq | htail
    · subst heq
      intro b hb
      simp only [List.mem_cons] at hb ⊢
      tauto
    · intro b hb
      have := chunks3_mem rest chunk htail b hb
      simp only [List.mem_cons]
      tauto

/-- The hand-rolled `base64url_encode` agrees with the standard
unpadded base64url encoding on every byte list. -/
theorem b64_encode_eq_spec (input : List Nat) (h : ∀ b ∈ input, b < 256) :
    base64url_encode input = base64urlSpec input := by
  unfold base64url_encode base64urlSpec
  congr 1
  congr 1
  congr 1
  apply List.map_congr_left
  intro chunk hchunk
  exact b64Chunk_eq chunk (fun b hb => h b (chunks3_mem input chunk hchunk b hb))

/-- Length of the encoding: the unpadded base64 length formula. -/
theorem b64_encode_length : ∀ (input : List Nat),
    (base64url_encode input).length = (4 * input.length + 2) / 3
  | [] => rfl
  | [b0] => by
    have h : (base64url_encode [b0]).length = 2 := rfl
    rw [h]
    norm_num
  | [b0, b1] => by
    have h : (base64url_encode [b0, b1]).length = 3 := rfl
    rw [h]
    norm_num
  | b0 :: b1 :: b2 :: rest => by
    have ih := b64_encode_length rest
    show (((chunks3 (b0 :: b1 :: b2 :: rest)).map b64ChunkCode).flatten.map
      (fun i => b64Alphabet.getD i ' ')).length = _
    have hs : chunks3 (b0 :: b1 :: b2 :: rest) = [b0, b1, b2] :: chunks3 rest := rfl
    rw [hs, List.map_cons, List.flatten_cons, List.map_append, List.length_append]
    have hr : ((chunks3 rest).map b64ChunkCode).flatten.map
        (fun i => b64Alphabet.getD i ' ') = (base64url_encode rest).data := rfl
    rw [hr]
    have hlen : (base64url_encode rest).data.length = (4 * rest.length + 2) / 3 := ih
    rw [hlen]
    simp only [b64ChunkCode, List.length_map, List.length_cons, List.length_nil]
    omega

/-- Every reference sextet of a byte chunk is below 64. -/
theorem b64ChunkSpec_lt (chunk : List Nat) (h : ∀ b ∈ chunk, b < 256) :
    ∀ x ∈ b64ChunkSpec chunk, x < 64 := by
  match chunk with
  | [] => simp [b64ChunkSpec]
  | [b0] =>
    have h0 : b0 < 256 := h b0 (by simp)
    simp only [b64ChunkSpec, List.mem_cons, List.mem_singleton]
    rintro x (rfl | rfl | hx)
    · omega
    · omega
    · simp at hx
  | [b0, b1] =>
    have h0 : b0 < 256 := h b0 (by simp)
    have h1 : b1 < 256 := h b1 (by simp)
    simp only [b64ChunkSpec, List.mem_cons, List.mem_singleton]
    rintro x (rfl | rfl | rfl | hx)
    · omega
    · omega
    · omega
    · simp at hx
  | b0 :: b1 :: b2 :: rest =>
    have h0 : b0 < 256 := h b0 (by simp)
    have h1 : b1 < 256 := h b1 (by simp)
    have h2 : b2 < 256 := h b2 (by simp)
    simp only [b64ChunkSpec, List.mem_cons, List.mem_singleton]
    rintro x (rfl | rfl | rfl | rfl | hx)
    · omega
    · omega
    · omega
    · omega
    · simp at hx

/-- Every character of the reference encoding lies in the URL-safe
alphabet. -/
theorem b64_spec_chars (input : List Nat) (h : ∀ b ∈ input, b < 256) :
    ∀ ch ∈ (base64urlSpec input).data, ch ∈ b64Alphabet := by
  intro ch hch
  have hch2 : ch ∈ ((chunks3 input).map b64ChunkSpec).flatten.map
      (fun i => b64Alphabet.getD i ' ') := hch
  rw [List.mem_map] at hch2
  obtain ⟨i, hi, hieq⟩ := hch2
  rw [List.mem_flatten] at hi
  obtain ⟨sx, hsx, hisx⟩ := hi
  rw [List.mem_map] at hsx
  obtain ⟨chunk, hchunk, hscheq⟩ := hsx
  have hib : i < 64 := by
    apply b64ChunkSpec_lt chunk
      (fun b hb => h b (chunks3_mem input chunk hchunk b hb))
    rw [hscheq]
    exact hisx
  have h64 : i < b64Alphabet.length := by
    have : b64Alphabet.length = 64 := rfl
    omega
  rw [← hieq, List.getD_eq_getElem b64Alphabet ' ' h64]
  exact List.getElem_mem h64

/-- C9: a freshly generated PKCE verifier is the unpadded base64url
encoding of the 32 random bytes — 43 characters over the URL-safe
alphabet — and the challenge is the base64url encoding of the SHA-256
digest (modelled by the parameter `sha`) of the verifier's bytes; in
particular the hand-rolled `base64url_encode` agrees with the standard
encoding on all byte lists. -/
theorem claim9_pkce_pair_spec (sha : List Nat → List Nat) (bytes : List Nat)
    (hlen : bytes.length = 32) (hbytes : ∀ b ∈ bytes, b < 256)
    (hsha : ∀ b ∈ sha (strBytes (generate_pkce_pair sha bytes).1), b < 256) :
    ((generate_pkce_pair sha bytes).1).length = 43 ∧
    (∀ ch ∈ ((generate_pkce_pair sha bytes).1).data, ch ∈ b64Alphabet) ∧
    (generate_pkce_pair sha bytes).1 = base64urlSpec bytes ∧
    (generate_pkce_pair sha bytes).2
      = base64urlSpec (sha (strBytes (generate_pkce_pair sha bytes).1)) ∧
    (∀ input : List Nat, (∀ b ∈ input, b < 256) →
      base64url_encode input = base64urlSpec input) := by
  refine ⟨?_, ?_, b64_encode_eq_spec bytes hbytes, b64_encode_eq_spec _ hsha,
    fun input hin => b64_encode_eq_spec input hin⟩
  · show (base64url_encode bytes).length = 43
    rw [b64_encode_length, hlen]
  · intro ch hch
    have hch2 : ch ∈ (base64url_encode bytes).data := hch
    rw [b64_encode_eq_spec bytes hbytes] at hch2
    exact b64_spec_chars bytes hbytes ch hch2

/-- C9 witness: the theorem applied to the all-zero byte vector and an
all-zero digest function, hypotheses evaluated by `decide`. -/
theorem claim9_pkce_pair_spec_witness :
    ((generate_pkce_pair (fun _ => List.replicate 32 0) (List.replicate 32 0)).1).length
      = 43 ∧
    (generate_pkce_pair (fun _ => List.replicate 32 0) (List.replicate 32 0)).1
      = base64urlSpec (List.replicate 32 0) := by
  have h := claim9_pkce_pair_spec (fun _ => List.replicate 32 0) (List.replicate 32 0)
    (by decide) (by decide) (by decide)
  exact ⟨h.1, h.2.2.1⟩
